import Mathlib

/-!
Shallow embedding of `dns_resolve.py`, a recursive DNS resolver built on
dnspython.  Python functions are translated one-for-one:

* `ipv4_addr`           — address extraction from the textual rendering of a
  resource record set, with the `dict_cache` side effect;
* `lookup`              — label-cache consultation before resolution;
* `recursive_resolver`  — the delegation walker (mutual block below, with an
  explicit fuel parameter standing for the unbounded Python recursion);
* `collect_results`     — the result collector assembling CNAME/A/AAAA/MX;
* `main`'s per-name loop and duplicate handling (`processName`, `runMain`).

The external DNS transport (`dns.query.udp`) is modelled as a pure oracle
`Transport`; a `none` result stands for any raised transport exception
(timeout, unreachable, malformed), which the Python code catches with a bare
`except`.  Machine-level partiality that the Python code leaves unguarded
(negative indexing `[-2]` on a list shorter than 2) is modelled with a
default value; every owner name exercised here is dotted, where the two
agree.
-/

set_option autoImplicit false

/-! ### Textual helpers

`dns.name.from_text` (used by `dns.name.from_text` in `collect_results` and by
`dns.message.make_query` inside the resolver) turns a textual name into its
absolute form, i.e. appends the final dot if absent.  `str.split(".")` is
modelled by `splitDot`, Python slicing `[:-1]` by `dropLastChar`.
-/

/-- Python `s.split(".")` on the character list: separator-keeping split. -/
def splitDotChars : List Char → List (List Char)
  | [] => [[]]
  | c :: cs =>
    if c = '.' then [] :: splitDotChars cs
    else
      match splitDotChars cs with
      | [] => [[c]]
      | p :: ps => (c :: p) :: ps

/-- Python `s.split(".")`. -/
def splitDot (s : String) : List String :=
  (splitDotChars s.data).map String.mk

/-- Python `s[:-1]`: drop the final character (identity on `""`). -/
def dropLastChar (s : String) : String :=
  String.mk s.data.dropLast

/-- Whether the textual name already carries the final dot. -/
def endsDot (s : String) : Bool :=
  match s.data.getLast? with
  | some c => c = '.'
  | none => false

/-- `dns.name.from_text` / `make_query` normalisation: absolute textual form. -/
def nameToText (s : String) : String :=
  if endsDot s then s else s ++ "."

/-- Dot-join of a label list (inverse of `splitDot` on dot-free labels),
used to state facts about cache keys of arbitrary names. -/
def joinDot : List String → String
  | [] => ""
  | [l] => l
  | l :: ls => l ++ "." ++ joinDot ls

/-- Character-level version of `joinDot`. -/
def joinDotChars : List (List Char) → List Char
  | [] => []
  | [l] => l
  | l :: ls => l ++ '.' :: joinDotChars ls

/-! ### The label cache (`dict_cache`)

Python's module-level `dict` mapping one label to the list of discovered
server addresses.  Modelled as an insertion-ordered association list with
Python `dict` lookup/assignment semantics.
-/

/-- The `dict_cache` state: label to list of IPv4 address strings. -/
abbrev Cache := List (String × List String)

/-- Python `key in dict` / `dict.get(key)`. -/
def cacheFind : Cache → String → Option (List String)
  | [], _ => none
  | (k, v) :: rest, key => if k = key then some v else cacheFind rest key

/-- Python `dict[key] = value`: overwrite in place, else append. -/
def cacheSet : Cache → String → List String → Cache
  | [], k, v => [(k, v)]
  | (k', v') :: rest, k, v =>
    if k' = k then (k, v) :: rest else (k', v') :: cacheSet rest k v

/-- The cache key computed by both `ipv4_addr` and `lookup`:
element `[-2]` of the dot-split of the textual name
(`str(target_name).split(".")[-2]` resp. `domain[-2]`). -/
def labelKey (s : String) : String :=
  let parts := splitDot s
  parts.getD (parts.length - 2) ""

/-- `ipv4_addr`'s loop body for one whitespace token `row` of the record's
textual rendering.  `tokens` is the full token list (`string.split()`),
`acc` carries `(ipv4_list, dict_cache)`. -/
def ipv4_step (tokens : List String) (row : String) (acc : List String × Cache) :
    List String × Cache :=
  if row = "A" then
    match cacheFind acc.2 (labelKey (tokens.headD "")) with
    | none =>
      ([tokens.getLastD ""],
       cacheSet acc.2 (labelKey (tokens.headD "")) [tokens.getLastD ""])
    | some ex =>
      if [tokens.getLastD ""].headD "" ∈ ex then ([tokens.getLastD ""], acc.2)
      else
        ([tokens.getLastD ""],
         cacheSet acc.2 (labelKey (tokens.headD "")) (ex ++ [tokens.getLastD ""]))
  else acc

/-- `ipv4_addr(string)`: walk the whitespace tokens of `str(record)`; on each
`'A'` token take the record's first token as owner, key the cache by the
owner's `split(".")[-2]` label, and remember the final token as the address
(deduplicating).  Returns the extracted list and the updated `dict_cache`. -/
def ipv4_addr (tokens : List String) (c : Cache) : List String × Cache :=
  tokens.foldl (fun acc row => ipv4_step tokens row acc) ([], c)

/-! ### DNS data model

A resource record (`dns.rdata`) carries its numeric type code
(A = 1, NS = 2, CNAME = 5, SOA = 6, MX = 15, AAAA = 28) and the whitespace
tokens of its textual rendering (one token for an A/AAAA/CNAME/NS datum, two
for MX).  A record set (`dns.rrset`) groups records under one owner name and
TTL; a message has the three sections used by the resolver.
-/

structure Rdata where
  rdtype : Nat
  dataTokens : List String
deriving DecidableEq

structure RRset where
  ownerText : String
  ttl : Nat
  rdatas : List Rdata
deriving DecidableEq

structure Message where
  answer : List RRset
  authority : List RRset
  additional : List RRset
deriving DecidableEq

/-- `str(rdata)`: the textual rendering of one record's data. -/
def rdataText (r : Rdata) : String :=
  String.intercalate " " r.dataTokens

/-- dnspython's textual type mnemonic. -/
def typeText : Nat → String
  | 1 => "A"
  | 2 => "NS"
  | 5 => "CNAME"
  | 6 => "SOA"
  | 15 => "MX"
  | 28 => "AAAA"
  | n => "TYPE" ++ toString n

/-- `str(rrset).split()`: the whitespace tokens of the record set's rendering
("owner ttl IN TYPE data", one line per record, lines merged by `split()`). -/
def rrsetTokens (a : RRset) : List String :=
  a.rdatas.flatMap fun r =>
    [a.ownerText, toString a.ttl, "IN", typeText r.rdtype] ++ r.dataTokens

/-- All records of the answer section in iteration order
(`for answers in response.answer: for each_answer in answers`). -/
def flatRdatas (l : List RRset) : List Rdata :=
  l.flatMap fun a => a.rdatas

/-- The pure transport oracle standing for `dns.query.udp(query, server, 3)`:
arguments are the query's textual name, the query type and the server
address; `none` models any transport exception. -/
abbrev Transport := String → Nat → String → Option Message

/-- The 13 hard-coded root server addresses. -/
def ROOT_SERVERS : List String :=
  ["198.41.0.4", "192.228.79.201", "192.33.4.12", "199.7.91.13",
   "192.203.230.10", "192.5.5.241", "192.112.36.4", "198.97.190.53",
   "192.36.148.17", "192.58.128.30", "193.0.14.129", "199.7.83.42",
   "202.12.27.33"]

/-! ### Answer-section classification

The inner double loop of `recursive_resolver` over a non-empty answer
section: every record first overwrites `target_name` with `str(record)[:-1]`;
a record of the requested type returns the message, a CNAME restarts from the
roots, and otherwise the loop falls through to the next candidate server with
the overwritten working name.
-/

inductive PAnswer where
  | matched (tn : String)
  | cname (tn : String)
  | fall (tn : String)
deriving DecidableEq

def processAnswer (q : Nat) (tn : String) : List Rdata → PAnswer
  | [] => .fall tn
  | r :: rs =>
    let tn' := dropLastChar (rdataText r)
    if r.rdtype = q then .matched tn'
    else if r.rdtype = 5 then .cname tn'
    else processAnswer q tn' rs

/-- The rdata loop over one authority record set: a SOA record returns `none`
(the resolver then returns `None`); other records append their dot-stripped
text to `ns_list`. -/
def collectNs (nsList : List String) : List Rdata → Option (List String)
  | [] => some nsList
  | r :: rs =>
    if r.rdtype = 6 then none
    else collectNs (nsList ++ [dropLastChar (rdataText r)]) rs

/-- The additional-section loop: `address_list = address_list +
ipv4_addr(str(record))` over every additional record. -/
def additionalLoop : List RRset → Cache → List String × Cache
  | [], c => ([], c)
  | a :: as_, c =>
    let p := ipv4_addr (rrsetTokens a) c
    let rest := additionalLoop as_ p.2
    (p.1 ++ rest.1, rest.2)

/-! ### The delegation walker (`recursive_resolver`)

The Python function recurses without any bound, so the embedding threads an
explicit fuel parameter: every call — the outer candidate loop, the recursive
resolver calls, the authority/NS chasing loops — consumes one unit.  Fuel
exhaustion returns `(none, cache)`, the same shape as candidate exhaustion;
all theorems below hold for every fuel value or quantify over it.

The five functions transcribe, in order: the resolver entry (empty-server
base case plus `make_query` normalisation), the `for each_server` loop, the
`for auth_list in response.authority` loop, the `for each_name in ns_list`
loop and the `for each_answer in ns_result.answer` loop.
-/

mutual

def recursive_resolver : Nat → Transport → String → Nat → List String → Cache →
    Option Message × Cache
  | 0, _, _, _, _, c => (none, c)
  | n + 1, t, tn, q, servers, c =>
    if servers.isEmpty then (none, c)
    else serverLoop n t (nameToText tn) q tn servers c
termination_by structural n => n

def serverLoop : Nat → Transport → String → Nat → String → List String → Cache →
    Option Message × Cache
  | 0, _, _, _, _, _, c => (none, c)
  | n + 1, t, qname, q, tn, servers, c =>
    match servers with
    | [] => (none, c)
    | s :: ss =>
      match t qname q s with
      | none => serverLoop n t qname q tn ss c
      | some resp =>
        if resp.answer.isEmpty then
          if resp.additional.isEmpty then
            let p := authLoop n t tn q [] resp.authority c
            match p.1 with
            | some r => (r, p.2)
            | none => serverLoop n t qname q tn ss p.2
          else
            let p := additionalLoop resp.additional c
            recursive_resolver n t tn q p.1 p.2
        else
          match processAnswer q tn (flatRdatas resp.answer) with
          | .matched _ => (some resp, c)
          | .cname s2 => recursive_resolver n t s2 q ROOT_SERVERS c
          | .fall tn2 => serverLoop n t qname q tn2 ss c
termination_by structural n => n

def authLoop : Nat → Transport → String → Nat → List String → List RRset → Cache →
    Option (Option Message) × Cache
  | 0, _, _, _, _, _, c => (none, c)
  | n + 1, t, tn, q, nsList, rrsets, c =>
    match rrsets with
    | [] => (none, c)
    | a :: as_ =>
      match collectNs nsList a.rdatas with
      | none => (some none, c)
      | some nsList' =>
        let p := nsNameLoop n t tn q nsList' c
        match p.1 with
        | some m => (some (some m), p.2)
        | none => authLoop n t tn q nsList' as_ p.2
termination_by structural n => n

def nsNameLoop : Nat → Transport → String → Nat → List String → Cache →
    Option Message × Cache
  | 0, _, _, _, _, c => (none, c)
  | n + 1, t, tn, q, names, c =>
    match names with
    | [] => (none, c)
    | nm :: nms =>
      let p := recursive_resolver n t nm 1 ROOT_SERVERS c
      match p.1 with
      | none => nsNameLoop n t tn q nms p.2
      | some msg =>
        let p2 := nsAnswerLoop n t tn q msg.answer p.2
        match p2.1 with
        | some m => (some m, p2.2)
        | none => nsNameLoop n t tn q nms p2.2
termination_by structural n => n

def nsAnswerLoop : Nat → Transport → String → Nat → List RRset → Cache →
    Option Message × Cache
  | 0, _, _, _, _, c => (none, c)
  | n + 1, t, tn, q, rrsets, c =>
    match rrsets with
    | [] => (none, c)
    | a :: as_ =>
      let p := ipv4_addr (rrsetTokens a) c
      let p2 := recursive_resolver n t tn q p.1 p.2
      match p2.1 with
      | some m => (some m, p2.2)
      | none => nsAnswerLoop n t tn q as_ p2.2
termination_by structural n => n

end

/-! ### `lookup` and the result collector -/

/-- The server list `lookup` starts from: the cached entry for the name's
`split(".")[-2]` label if present, else the fixed root servers. -/
def lookupServers (c : Cache) (nameText : String) : List String :=
  match cacheFind c (labelKey nameText) with
  | some addrs => addrs
  | none => ROOT_SERVERS

/-- `lookup(target_name, qtype)`: consult `dict_cache` by the name's
`split(".")[-2]` label, then run the recursive resolver. -/
def lookup (n : Nat) (t : Transport) (targetText : String) (q : Nat) (c : Cache) :
    Option Message × Cache :=
  recursive_resolver n t targetText q (lookupServers c targetText) c

/-- The CNAME block of `collect_results`: append every answer record as an
alias pair `(str(record), original name)` — no type filter — and overwrite
the working target with `str(record)[:-1]`, last record winning. -/
def cnamePass (name : String) (target0 : String) : Option Message →
    List (String × String) × String
  | none => ([], target0)
  | some resp =>
    resp.answer.foldl
      (fun acc a =>
        a.rdatas.foldl
          (fun acc2 r => (acc2.1 ++ [(rdataText r, name)], dropLastChar (rdataText r)))
          acc)
      ([], target0)

/-- The A block: collect `(owner, str(record))` for records of type 1. -/
def aFold : Option Message → List (String × String)
  | none => []
  | some resp =>
    resp.answer.foldl
      (fun acc a =>
        a.rdatas.foldl
          (fun acc2 r => if r.rdtype == 1 then acc2 ++ [(a.ownerText, rdataText r)] else acc2)
          acc)
      []

/-- The AAAA block: collect `(owner, str(record))` for records of type 28. -/
def aaaaFold : Option Message → List (String × String)
  | none => []
  | some resp =>
    resp.answer.foldl
      (fun acc a =>
        a.rdatas.foldl
          (fun acc2 r => if r.rdtype == 28 then acc2 ++ [(a.ownerText, rdataText r)] else acc2)
          acc)
      []

/-- The MX block: collect `(owner, preference, exchange)` for records of
type 15 (`preference` is the first data token, `exchange` the second). -/
def mxFold : Option Message → List (String × String × String)
  | none => []
  | some resp =>
    resp.answer.foldl
      (fun acc a =>
        a.rdatas.foldl
          (fun acc2 r =>
            if r.rdtype == 15 then
              acc2 ++ [(a.ownerText, r.dataTokens.headD "", r.dataTokens.getD 1 "")]
            else acc2)
          acc)
      []

/-- The four-list record set assembled by `collect_results`. -/
structure RecordSet where
  cnames : List (String × String)
  arecords : List (String × String)
  aaaarecords : List (String × String)
  mxrecords : List (String × String × String)
deriving DecidableEq

/-- `collect_results(name)`: the four sequential lookups (CNAME, A, AAAA, MX),
the CNAME alias rewrite in between, and the assembled record set. -/
def collect_results (n : Nat) (t : Transport) (name : String) (c : Cache) :
    RecordSet × Cache :=
  let target0 := nameToText name
  let p1 := lookup n t target0 5 c
  let cp := cnamePass name target0 p1.1
  let p2 := lookup n t cp.2 1 p1.2
  let p3 := lookup n t cp.2 28 p2.2
  let p4 := lookup n t cp.2 15 p3.2
  (⟨cp.1, aFold p2.1, aaaaFold p3.1, mxFold p4.1⟩, p4.2)

/-! ### `main`: the result cache (`domain_cache`) and duplicate handling -/

/-- The `domain_cache` state: requested name to assembled record set. -/
abbrev DomainCache := List (String × RecordSet)

/-- Python `key in dict` / `dict[key]` on `domain_cache`. -/
def dcFind : DomainCache → String → Option RecordSet
  | [], _ => none
  | (k, v) :: rest, key => if k = key then some v else dcFind rest key

/-- Python `domain_cache[name] = result`. -/
def dcSet : DomainCache → String → RecordSet → DomainCache
  | [], k, v => [(k, v)]
  | (k', v') :: rest, k, v =>
    if k' = k then (k, v) :: rest else (k', v') :: dcSet rest k v

/-- The state `main` threads: `(domain_cache, dict_cache)`. -/
abbrev MainState := DomainCache × Cache

/-- One iteration of `main`'s per-name loop: serve from `domain_cache` if the
exact name string is present, else run `collect_results` and store the
result under the originally requested name. -/
def processName (n : Nat) (t : Transport) (name : String) (st : MainState) :
    RecordSet × MainState :=
  match dcFind st.1 name with
  | some r => (r, st)
  | none =>
    let p := collect_results n t name st.2
    (p.1, (dcSet st.1 name p.1, p.2))

/-- `main`'s duplicate filter (`argument_list`): keep first occurrences. -/
def dedupAux (acc : List String) : List String → List String
  | [] => acc
  | x :: xs => if x ∈ acc then dedupAux acc xs else dedupAux (acc ++ [x]) xs

/-- The per-name loop of `main`, returning what `print_results` receives. -/
def runNames (n : Nat) (t : Transport) : List String → MainState →
    List (String × RecordSet) × MainState
  | [], st => ([], st)
  | nm :: nms, st =>
    let p := processName n t nm st
    let rest := runNames n t nms p.2
    ((nm, p.1) :: rest.1, rest.2)

/-- `main`: with at most one argument, process the list directly; otherwise
process the deduplicated `argument_list`. -/
def runMain (n : Nat) (t : Transport) (names : List String) (st : MainState) :
    List (String × RecordSet) × MainState :=
  if names.length ≤ 1 then runNames n t names st
  else runNames n t (dedupAux [] names) st

/-! ### Concrete scenarios

Transports and messages used to exercise the definitions on explicit inputs.
`tNone` is the everywhere-failing transport of the spec's "simulated
unreachable transport" scenario.
-/

/-- Transport on which every query raises. -/
def tNone : Transport := fun _ _ _ => none

/-- Answer carrying a CNAME record first and a matching A record second. -/
def msgC3 : Message :=
  ⟨[⟨"www.example.com.", 300, [⟨5, ["target.example.com."]⟩]⟩,
    ⟨"target.example.com.", 300, [⟨1, ["1.2.3.4"]⟩]⟩], [], []⟩

/-- Transport answering the original A query with `msgC3` from one server. -/
def tC3 : Transport := fun nm q s =>
  if nm = "www.example.com." ∧ q = 1 ∧ s = "5.5.5.5" then some msgC3 else none

/-- Plain A answer for the query name. -/
def msgC3w : Message :=
  ⟨[⟨"www.example.com.", 300, [⟨1, ["1.2.3.4"]⟩]⟩], [], []⟩

/-- Transport answering the A query directly from the first candidate. -/
def tC3w : Transport := fun nm q s =>
  if nm = "www.example.com." ∧ q = 1 ∧ s = "5.5.5.5" then some msgC3w else none

/-- CNAME-only answer. -/
def msgC4 : Message :=
  ⟨[⟨"www.example.com.", 300, [⟨5, ["target.example.com."]⟩]⟩], [], []⟩

/-- Transport answering the A query with a lone CNAME. -/
def tC4 : Transport := fun nm q s =>
  if nm = "www.example.com." ∧ q = 1 ∧ s = "5.5.5.5" then some msgC4 else none

/-- An answer whose only record neither matches the query type nor is a
CNAME (type 16, TXT): the walker overwrites the working name with its text
minus the last character and falls through to the next candidate. -/
def msgTxt : Message :=
  ⟨[⟨"orig.example.com.", 300, [⟨16, ["weird-data."]⟩]⟩], [], []⟩

/-- Empty answer with one A glue record in the additional section. -/
def msgRef : Message :=
  ⟨[], [], [⟨"ns1.example.com.", 300, [⟨1, ["10.0.0.9"]⟩]⟩]⟩

/-- A answer for the overwritten working name. -/
def msgEvil : Message :=
  ⟨[⟨"weird-data.", 300, [⟨1, ["6.6.6.6"]⟩]⟩], [], []⟩

/-- A answer for the original query name. -/
def msgGood : Message :=
  ⟨[⟨"orig.example.com.", 300, [⟨1, ["1.2.3.4"]⟩]⟩], [], []⟩

/-- Transport for the working-name-mutation scenario: candidate 1 returns the
unusable TXT answer, candidate 2 the glue referral; the glued server then
answers differently for the overwritten name and the original name. -/
def tC2 : Transport := fun nm q s =>
  if q = 1 ∧ nm = "orig.example.com." ∧ s = "7.7.7.1" then some msgTxt
  else if q = 1 ∧ nm = "orig.example.com." ∧ s = "7.7.7.2" then some msgRef
  else if q = 1 ∧ nm = "weird-data." ∧ s = "10.0.0.9" then some msgEvil
  else if q = 1 ∧ nm = "orig.example.com." ∧ s = "10.0.0.9" then some msgGood
  else none

/-- Authoritative negative answer: empty answer and additional, SOA-only
authority section. -/
def msgSoa : Message :=
  ⟨[], [⟨"example.com.", 300,
    [⟨6, ["ns1.example.com.", "admin.example.com.", "1", "7200", "900", "1209600", "86400"]⟩]⟩], []⟩

/-- Transport on which every server returns the SOA-only negative answer. -/
def tC5w : Transport := fun _ _ _ => some msgSoa

/-- Referral whose authority section holds an NS record set first and an SOA
record set second (and no glue). -/
def msgRef2 : Message :=
  ⟨[], [⟨"example.com.", 300, [⟨2, ["ns1.example.com."]⟩]⟩,
        ⟨"example.com.", 300,
         [⟨6, ["ns1.example.com.", "admin.example.com.", "1", "7200", "900", "1209600", "86400"]⟩]⟩], []⟩

/-- A answer resolving the NS host name. -/
def msgNsA : Message :=
  ⟨[⟨"ns1.example.com.", 300, [⟨1, ["9.9.9.9"]⟩]⟩], [], []⟩

/-- Final A answer from the chased NS address. -/
def msgFinal : Message :=
  ⟨[⟨"host.example.com.", 300, [⟨1, ["5.5.5.5"]⟩]⟩], [], []⟩

/-- Transport for the NS-before-SOA scenario: the candidate returns
`msgRef2`; the first root answers the NS host's A query; the NS address
answers the original query. -/
def tC5x : Transport := fun nm q s =>
  if q = 1 ∧ nm = "host.example.com." ∧ s = "7.7.7.7" then some msgRef2
  else if q = 1 ∧ nm = "ns1.example.com." ∧ s = "198.41.0.4" then some msgNsA
  else if q = 1 ∧ nm = "host.example.com." ∧ s = "9.9.9.9" then some msgFinal
  else none

/-- CNAME answer aliasing `alias.example.com` to `real.example.com`. -/
def msgCn : Message :=
  ⟨[⟨"alias.example.com.", 300, [⟨5, ["real.example.com."]⟩]⟩], [], []⟩

/-- MX answer for the alias target. -/
def msgMX2 : Message :=
  ⟨[⟨"real.example.com.", 300, [⟨15, ["10", "mx1.example.com."]⟩]⟩], [], []⟩

/-- Transport for the collector scenario: the CNAME query succeeds (from the
first root server) and rewrites the working target; at the alias target the
A and AAAA queries fail while the MX query answers. -/
def tC7w2 : Transport := fun nm q s =>
  if nm = "alias.example.com." ∧ q = 5 ∧ s = "198.41.0.4" then some msgCn
  else if nm = "real.example.com." ∧ q = 15 ∧ s = "198.41.0.4" then some msgMX2
  else none

/-- A CNAME-step response whose single answer record is an A record, not a
CNAME. -/
def msgC10 : Message :=
  ⟨[⟨"x.com.", 300, [⟨1, ["7.7.7.7"]⟩]⟩], [], []⟩

/-- Glue-only referral for the label-cache scenario. -/
def msgRefG : Message :=
  ⟨[], [], [⟨"ns1.example.com.", 300, [⟨1, ["10.0.0.9"]⟩]⟩]⟩

/-- Final A answer from the glued address. -/
def msgA8 : Message :=
  ⟨[⟨"example.com.", 300, [⟨1, ["93.184.216.34"]⟩]⟩], [], []⟩

/-- Transport for the label-cache scenario: glue referral from the
candidate, answer from the glued address. -/
def tC8 : Transport := fun nm q s =>
  if q = 1 ∧ nm = "example.com." ∧ s = "7.7.7.7" then some msgRefG
  else if q = 1 ∧ nm = "example.com." ∧ s = "10.0.0.9" then some msgA8
  else none

/-! ### Helper lemmas: cache growth

`CacheLE c c'` says every entry of `c` survives in `c'` as a prefix of the
newer value — the Python code only ever appends to a `dict_cache` entry.
-/

/-- Closed form of `ipv4_addr`'s returned list: the final token of the
rendering when any `'A'` token occurs, else the empty list.  (In particular
the output never contains more than one address, whatever the record set
holds, and does not depend on the cache.) -/
def extractOut (tokens : List String) : List String :=
  if tokens.contains "A" then [tokens.getLastD ""] else []

/-- The Python predicate picking the first relevant answer record:
its type matches the query or is CNAME. -/
def relevantRdata (q : Nat) (x : Rdata) : Bool :=
  x.rdtype == q || x.rdtype == 5

/-- Filter-style restatement of the A block (records of type 1 only). -/
def aOf : Option Message → List (String × String)
  | none => []
  | some resp =>
    resp.answer.flatMap fun a =>
      a.rdatas.filterMap fun rd =>
        if rd.rdtype == 1 then some (a.ownerText, rdataText rd) else none

/-- Filter-style restatement of the AAAA block (records of type 28 only). -/
def aaaaOf : Option Message → List (String × String)
  | none => []
  | some resp =>
    resp.answer.flatMap fun a =>
      a.rdatas.filterMap fun rd =>
        if rd.rdtype == 28 then some (a.ownerText, rdataText rd) else none

/-- Filter-style restatement of the MX block (records of type 15 only). -/
def mxOf : Option Message → List (String × String × String)
  | none => []
  | some resp =>
    resp.answer.flatMap fun a =>
      a.rdatas.filterMap fun rd =>
        if rd.rdtype == 15 then
          some (a.ownerText, rd.dataTokens.headD "", rd.dataTokens.getD 1 "")
        else none

/-- Every answer record becomes an alias pair, regardless of its type. -/
def cnamesOf (name : String) : Option Message → List (String × String)
  | none => []
  | some resp => (flatRdatas resp.answer).map fun rd => (rdataText rd, name)

/-- The working target after the CNAME block: the dot-stripped text of the
last answer record, if any, else the unchanged initial target. -/
def cnameTarget (target0 : String) : Option Message → String
  | none => target0
  | some resp =>
    ((flatRdatas resp.answer).getLast?.map fun rd =>
      dropLastChar (rdataText rd)).getD target0

def CacheLE (c c' : Cache) : Prop :=
  ∀ k v, cacheFind c k = some v → ∃ w, cacheFind c' k = some (v ++ w)

theorem cacheLE_refl (c : Cache) : CacheLE c c := by
  intro k v h
  exact ⟨[], by simpa using h⟩

theorem cacheLE_trans {a b c : Cache} (h1 : CacheLE a b) (h2 : CacheLE b c) :
    CacheLE a c := by
  intro k v h
  obtain ⟨w1, hw1⟩ := h1 k v h
  obtain ⟨w2, hw2⟩ := h2 k (v ++ w1) hw1
  exact ⟨w1 ++ w2, by simpa [List.append_assoc] using hw2⟩

theorem cacheFind_cacheSet_self (c : Cache) (k : String) (v : List String) :
    cacheFind (cacheSet c k v) k = some v := by
  induction c with
  | nil => simp [cacheSet, cacheFind]
  | cons hd tl ih =>
    obtain ⟨k', v'⟩ := hd
    by_cases h : k' = k
    · simp [cacheSet, h, cacheFind]
    · simp [cacheSet, h, cacheFind, ih]

theorem cacheFind_cacheSet_ne (c : Cache) (k k' : String) (v : List String)
    (h : k ≠ k') : cacheFind (cacheSet c k v) k' = cacheFind c k' := by
  induction c with
  | nil => simp [cacheSet, cacheFind, h]
  | cons hd tl ih =>
    obtain ⟨k0, v0⟩ := hd
    by_cases h0 : k0 = k
    · subst h0
      simp [cacheSet, cacheFind, h]
    · simp [cacheSet, h0, cacheFind, ih]

theorem ipv4_step_cacheLE (tokens : List String) (row : String)
    (acc : List String × Cache) : CacheLE acc.2 (ipv4_step tokens row acc).2 := by
  intro k v h
  unfold ipv4_step
  by_cases hrow : row = "A"
  · simp only [if_pos hrow]
    cases hfind : cacheFind acc.2 (labelKey (tokens.headD "")) with
    | none =>
      simp only [hfind]
      by_cases hk : labelKey (tokens.headD "") = k
      · subst hk
        rw [hfind] at h
        exact Option.noConfusion h
      · refine ⟨[], ?_⟩
        rw [cacheFind_cacheSet_ne _ _ _ _ hk, List.append_nil]
        exact h
    | some ex =>
      simp only [hfind]
      by_cases hmem : [tokens.getLastD ""].headD "" ∈ ex
      · simp only [if_pos hmem]
        exact ⟨[], by rw [List.append_nil]; exact h⟩
      · simp only [if_neg hmem]
        by_cases hk : labelKey (tokens.headD "") = k
        · subst hk
          rw [hfind] at h
          have hv : ex = v := by injection h
          subst hv
          exact ⟨[tokens.getLastD ""], cacheFind_cacheSet_self _ _ _⟩
        · refine ⟨[], ?_⟩
          rw [cacheFind_cacheSet_ne _ _ _ _ hk, List.append_nil]
          exact h
  · simp only [if_neg hrow]
    exact ⟨[], by rw [List.append_nil]; exact h⟩

theorem ipv4_foldl_cacheLE (tokens : List String) :
    ∀ (ts : List String) (acc : List String × Cache),
      CacheLE acc.2 (ts.foldl (fun acc row => ipv4_step tokens row acc) acc).2 := by
  intro ts
  induction ts with
  | nil => intro acc; exact cacheLE_refl _
  | cons r rs ih =>
    intro acc
    exact cacheLE_trans (ipv4_step_cacheLE tokens r acc) (ih _)

theorem ipv4_addr_cacheLE (tokens : List String) (c : Cache) :
    CacheLE c (ipv4_addr tokens c).2 :=
  ipv4_foldl_cacheLE tokens tokens ([], c)

theorem additionalLoop_cacheLE (rs : List RRset) (c : Cache) :
    CacheLE c (additionalLoop rs c).2 := by
  induction rs generalizing c with
  | nil => exact cacheLE_refl _
  | cons a as_ ih =>
    exact cacheLE_trans (ipv4_addr_cacheLE (rrsetTokens a) c) (ih _)

/-- Every function of the delegation walker only grows `dict_cache`
(all mutations go through `ipv4_addr`, which only appends). -/
theorem resolver_cacheLE :
    ∀ n : Nat,
      (∀ (t : Transport) (tn : String) (q : Nat) (srv : List String) (c : Cache),
        CacheLE c (recursive_resolver n t tn q srv c).2) ∧
      (∀ (t : Transport) (qn : String) (q : Nat) (tn : String) (srv : List String)
        (c : Cache), CacheLE c (serverLoop n t qn q tn srv c).2) ∧
      (∀ (t : Transport) (tn : String) (q : Nat) (ns : List String)
        (rrs : List RRset) (c : Cache), CacheLE c (authLoop n t tn q ns rrs c).2) ∧
      (∀ (t : Transport) (tn : String) (q : Nat) (nms : List String) (c : Cache),
        CacheLE c (nsNameLoop n t tn q nms c).2) ∧
      (∀ (t : Transport) (tn : String) (q : Nat) (rrs : List RRset) (c : Cache),
        CacheLE c (nsAnswerLoop n t tn q rrs c).2) := by
  intro n
  induction n with
  | zero =>
    refine ⟨?_, ?_, ?_, ?_, ?_⟩ <;> intros <;>
      simp only [recursive_resolver, serverLoop, authLoop, nsNameLoop, nsAnswerLoop] <;>
      exact cacheLE_refl _
  | succ n ih =>
    obtain ⟨ihr, ihs, iha, ihn, ihw⟩ := ih
    refine ⟨?_, ?_, ?_, ?_, ?_⟩
    · intro t tn q srv c
      simp only [recursive_resolver]
      by_cases hsrv : srv.isEmpty
      · simp only [if_pos hsrv]
        exact cacheLE_refl _
      · simp only [if_neg hsrv]
        exact ihs t (nameToText tn) q tn srv c
    · intro t qn q tn srv c
      cases srv with
      | nil =>
        simp only [serverLoop]
        exact cacheLE_refl _
      | cons s ss =>
        simp only [serverLoop]
        cases htr : t qn q s with
        | none =>
          simp only [htr]
          exact ihs t qn q tn ss c
        | some resp =>
          simp only [htr]
          by_cases hans : resp.answer.isEmpty
          · simp only [if_pos hans]
            by_cases hadd : resp.additional.isEmpty
            · simp only [if_pos hadd]
              cases hp : (authLoop n t tn q [] resp.authority c).1 with
              | some r =>
                simp only [hp]
                exact iha t tn q [] resp.authority c
              | none =>
                simp only [hp]
                exact cacheLE_trans (iha t tn q [] resp.authority c)
                  (ihs t qn q tn ss _)
            · simp only [if_neg hadd]
              exact cacheLE_trans (additionalLoop_cacheLE resp.additional c)
                (ihr t tn q _ _)
          · simp only [if_neg hans]
            cases hpa : processAnswer q tn (flatRdatas resp.answer) with
            | matched s2 =>
              simp only [hpa]
              exact cacheLE_refl _
            | cname s2 =>
              simp only [hpa]
              exact ihr t s2 q ROOT_SERVERS c
            | fall tn2 =>
              simp only [hpa]
              exact ihs t qn q tn2 ss c
    · intro t tn q ns rrs c
      cases rrs with
      | nil =>
        simp only [authLoop]
        exact cacheLE_refl _
      | cons a as_ =>
        simp only [authLoop]
        cases hcn : collectNs ns a.rdatas with
        | none =>
          simp only [hcn]
          exact cacheLE_refl _
        | some ns' =>
          simp only [hcn]
          cases hp : (nsNameLoop n t tn q ns' c).1 with
          | some m =>
            simp only [hp]
            exact ihn t tn q ns' c
          | none =>
            simp only [hp]
            exact cacheLE_trans (ihn t tn q ns' c) (iha t tn q ns' as_ _)
    · intro t tn q nms c
      cases nms with
      | nil =>
        simp only [nsNameLoop]
        exact cacheLE_refl _
      | cons nm rest =>
        simp only [nsNameLoop]
        cases hp : (recursive_resolver n t nm 1 ROOT_SERVERS c).1 with
        | none =>
          simp only [hp]
          exact cacheLE_trans (ihr t nm 1 ROOT_SERVERS c) (ihn t tn q rest _)
        | some msg =>
          simp only [hp]
          cases hp2 : (nsAnswerLoop n t tn q msg.answer
              (recursive_resolver n t nm 1 ROOT_SERVERS c).2).1 with
          | some m =>
            simp only [hp2]
            exact cacheLE_trans (ihr t nm 1 ROOT_SERVERS c) (ihw t tn q msg.answer _)
          | none =>
            simp only [hp2]
            exact cacheLE_trans (ihr t nm 1 ROOT_SERVERS c)
              (cacheLE_trans (ihw t tn q msg.answer _) (ihn t tn q rest _))
    · intro t tn q rrs c
      cases rrs with
      | nil =>
        simp only [nsAnswerLoop]
        exact cacheLE_refl _
      | cons a as_ =>
        simp only [nsAnswerLoop]
        cases hp2 : (recursive_resolver n t tn q (ipv4_addr (rrsetTokens a) c).1
            (ipv4_addr (rrsetTokens a) c).2).1 with
        | some m =>
          simp only [hp2]
          exact cacheLE_trans (ipv4_addr_cacheLE (rrsetTokens a) c)
            (ihr t tn q _ _)
        | none =>
          simp only [hp2]
          exact cacheLE_trans (ipv4_addr_cacheLE (rrsetTokens a) c)
            (cacheLE_trans (ihr t tn q _ _) (ihw t tn q as_ _))

/-! ### Helper lemmas: the extractor's output -/

theorem ipv4_step_fst (tokens : List String) (row : String)
    (acc : List String × Cache) :
    (ipv4_step tokens row acc).1 =
      if row = "A" then [tokens.getLastD ""] else acc.1 := by
  by_cases hrow : row = "A"
  · simp only [ipv4_step, if_pos hrow]
    split
    · rfl
    · split <;> rfl
  · simp [ipv4_step, hrow]

theorem ipv4_foldl_fst (tokens : List String) :
    ∀ (ts : List String) (l0 : List String) (c : Cache),
      (ts.foldl (fun acc row => ipv4_step tokens row acc) (l0, c)).1 =
        if ts.contains "A" then [tokens.getLastD ""] else l0 := by
  intro ts
  induction ts with
  | nil =>
    intro l0 c
    simp
  | cons r rs ih =>
    intro l0 c
    simp only [List.foldl_cons]
    rw [show ipv4_step tokens r (l0, c) =
        ((ipv4_step tokens r (l0, c)).1, (ipv4_step tokens r (l0, c)).2) from rfl,
      ipv4_step_fst, ih]
    by_cases hrow : r = "A"
    · subst hrow
      simp only [if_pos rfl, List.contains_cons]
      simp
    · simp only [if_neg hrow, List.contains_cons]
      have h1 : ¬ ("A" = r) := fun hh => hrow hh.symm
      simp [h1]

theorem ipv4_addr_fst (tokens : List String) (c : Cache) :
    (ipv4_addr tokens c).1 = extractOut tokens :=
  ipv4_foldl_fst tokens tokens [] c

theorem additionalLoop_fst (rs : List RRset) :
    ∀ c : Cache,
      (additionalLoop rs c).1 = rs.flatMap fun a => extractOut (rrsetTokens a) := by
  induction rs with
  | nil =>
    intro c
    simp [additionalLoop]
  | cons a as_ ih =>
    intro c
    simp only [additionalLoop, List.flatMap_cons]
    rw [ipv4_addr_fst, ih]

/-! ### Helper lemmas: answer-section classification -/

theorem processAnswer_matched (q : Nat) :
    ∀ (l : List Rdata) (tn : String) (r : Rdata),
      l.find? (relevantRdata q) = some r → r.rdtype = q →
      processAnswer q tn l = .matched (dropLastChar (rdataText r)) := by
  intro l
  induction l with
  | nil =>
    intro tn r hf
    simp [List.find?] at hf
  | cons x xs ih =>
    intro tn r hf hq
    by_cases hx : relevantRdata q x
    · rw [List.find?_cons_of_pos _ hx] at hf
      have hxr : x = r := by injection hf
      subst hxr
      simp [processAnswer, hq]
    · rw [List.find?_cons_of_neg _ hx] at hf
      have hnq : ¬ x.rdtype = q := by
        intro hc
        exact hx (by simp [relevantRdata, hc])
      have hn5 : ¬ x.rdtype = 5 := by
        intro hc
        exact hx (by simp [relevantRdata, hc])
      simp only [processAnswer, if_neg hnq, if_neg hn5]
      exact ih _ r hf hq

theorem processAnswer_cname (q : Nat) :
    ∀ (l : List Rdata) (tn : String) (r : Rdata),
      l.find? (relevantRdata q) = some r → r.rdtype = 5 → ¬ r.rdtype = q →
      processAnswer q tn l = .cname (dropLastChar (rdataText r)) := by
  intro l
  induction l with
  | nil =>
    intro tn r hf
    simp [List.find?] at hf
  | cons x xs ih =>
    intro tn r hf h5 hnq
    by_cases hx : relevantRdata q x
    · rw [List.find?_cons_of_pos _ hx] at hf
      have hxr : x = r := by injection hf
      subst hxr
      have hq5 : ¬ (5 = q) := by
        rw [← h5]
        exact hnq
      simp [processAnswer, h5, hq5]
    · rw [List.find?_cons_of_neg _ hx] at hf
      have hnq' : ¬ x.rdtype = q := by
        intro hc
        exact hx (by simp [relevantRdata, hc])
      have hn5' : ¬ x.rdtype = 5 := by
        intro hc
        exact hx (by simp [relevantRdata, hc])
      simp only [processAnswer, if_neg hnq', if_neg hn5']
      exact ih _ r hf h5 hnq

/-! ### Helper lemmas: transport failures -/

theorem serverLoop_allFail (t : Transport) (qn : String) (q : Nat) :
    ∀ (srv : List String) (n : Nat) (tn : String) (c : Cache),
      (∀ s ∈ srv, t qn q s = none) →
      serverLoop n t qn q tn srv c = (none, c) := by
  intro srv
  induction srv with
  | nil =>
    intro n tn c _
    cases n <;> simp [serverLoop]
  | cons s ss ih =>
    intro n tn c h
    cases n with
    | zero => simp [serverLoop]
    | succ n =>
      simp only [serverLoop]
      rw [h s (by simp)]
      exact ih n tn c fun s' hs' => h s' (by simp [hs'])

theorem resolver_allFail (t : Transport) (h : ∀ nm q s, t nm q s = none) :
    ∀ (n : Nat) (tn : String) (q : Nat) (srv : List String) (c : Cache),
      recursive_resolver n t tn q srv c = (none, c) := by
  intro n
  cases n with
  | zero =>
    intros
    simp [recursive_resolver]
  | succ n =>
    intro tn q srv c
    simp only [recursive_resolver]
    by_cases hs : srv.isEmpty
    · simp [hs]
    · simp only [if_neg hs]
      exact serverLoop_allFail t (nameToText tn) q srv n tn c fun s _ => h _ _ _

/-! ### Helper lemmas: closed forms of the collector's folds -/

/-- Closed form of the A/AAAA/MX folds' inner loop. -/
theorem foldl_guard_append {α : Type} (p : Rdata → Bool) (f : Rdata → α) :
    ∀ (l : List Rdata) (acc : List α),
      l.foldl (fun acc2 r => if p r then acc2 ++ [f r] else acc2) acc =
        acc ++ l.filterMap fun r => if p r then some (f r) else none := by
  intro l
  induction l with
  | nil =>
    intro acc
    simp
  | cons r rs ih =>
    intro acc
    simp only [List.foldl_cons, List.filterMap_cons]
    by_cases hp : p r
    · simp [hp, ih]
    · simp [hp, ih]

/-- Closed form of the A/AAAA/MX folds' outer loop over the record sets. -/
theorem foldl_guard_rrsets {α : Type} (p : Rdata → Bool) (g : RRset → Rdata → α) :
    ∀ (l : List RRset) (acc : List α),
      l.foldl
        (fun acc a =>
          a.rdatas.foldl (fun acc2 r => if p r then acc2 ++ [g a r] else acc2) acc)
        acc =
        acc ++ l.flatMap fun a =>
          a.rdatas.filterMap fun r => if p r then some (g a r) else none := by
  intro l
  induction l with
  | nil =>
    intro acc
    simp
  | cons a as_ ih =>
    intro acc
    simp only [List.foldl_cons, List.flatMap_cons]
    rw [foldl_guard_append p (g a), ih]
    simp

theorem aFold_eq (r : Option Message) : aFold r = aOf r := by
  cases r with
  | none => rfl
  | some resp =>
    simp only [aFold, aOf]
    rw [foldl_guard_rrsets (fun rd => rd.rdtype == 1)
      (fun a rd => (a.ownerText, rdataText rd)) resp.answer []]
    simp

theorem aaaaFold_eq (r : Option Message) : aaaaFold r = aaaaOf r := by
  cases r with
  | none => rfl
  | some resp =>
    simp only [aaaaFold, aaaaOf]
    rw [foldl_guard_rrsets (fun rd => rd.rdtype == 28)
      (fun a rd => (a.ownerText, rdataText rd)) resp.answer []]
    simp

theorem mxFold_eq (r : Option Message) : mxFold r = mxOf r := by
  cases r with
  | none => rfl
  | some resp =>
    simp only [mxFold, mxOf]
    rw [foldl_guard_rrsets (fun rd => rd.rdtype == 15)
      (fun a rd => (a.ownerText, rd.dataTokens.headD "", rd.dataTokens.getD 1 ""))
      resp.answer []]
    simp

/-- Closed form of the CNAME block's inner loop. -/
theorem foldl_cname_rdatas (name : String) :
    ∀ (l : List Rdata) (acc : List (String × String)) (tgt : String),
      l.foldl
        (fun acc2 r => (acc2.1 ++ [(rdataText r, name)], dropLastChar (rdataText r)))
        (acc, tgt) =
        (acc ++ l.map fun r => (rdataText r, name),
         (l.getLast?.map fun r => dropLastChar (rdataText r)).getD tgt) := by
  intro l
  induction l with
  | nil =>
    intro acc tgt
    simp
  | cons r rs ih =>
    intro acc tgt
    simp only [List.foldl_cons]
    rw [ih]
    cases rs with
    | nil => simp
    | cons r2 rs2 =>
      cases hx : (r2 :: rs2).getLast? with
      | none => simp at hx
      | some x => simp [List.getLast?_cons_cons, hx]

/-- Closed form of the CNAME block's outer loop. -/
theorem foldl_cname_rrsets (name : String) :
    ∀ (l : List RRset) (acc : List (String × String)) (tgt : String),
      l.foldl
        (fun acc a =>
          a.rdatas.foldl
            (fun acc2 r =>
              (acc2.1 ++ [(rdataText r, name)], dropLastChar (rdataText r)))
            acc)
        (acc, tgt) =
        (acc ++ (flatRdatas l).map fun r => (rdataText r, name),
         ((flatRdatas l).getLast?.map fun r => dropLastChar (rdataText r)).getD tgt) := by
  intro l
  induction l with
  | nil =>
    intro acc tgt
    simp [flatRdatas]
  | cons a as_ ih =>
    intro acc tgt
    simp only [List.foldl_cons]
    rw [foldl_cname_rdatas name a.rdatas acc tgt, ih]
    have hflat : flatRdatas (a :: as_) = a.rdatas ++ flatRdatas as_ := by
      simp [flatRdatas]
    rw [hflat]
    by_cases hemp : flatRdatas as_ = []
    · simp [hemp]
    · rw [List.getLast?_append_of_ne_nil _ hemp]
      cases hx : (flatRdatas as_).getLast? with
      | none =>
        rw [List.getLast?_eq_none_iff] at hx
        exact absurd hx hemp
      | some x => simp [hx]

theorem cnamePass_eq (name target0 : String) (r : Option Message) :
    cnamePass name target0 r = (cnamesOf name r, cnameTarget target0 r) := by
  cases r with
  | none => rfl
  | some resp =>
    simp only [cnamePass, cnamesOf, cnameTarget]
    rw [foldl_cname_rrsets name resp.answer [] target0]
    simp

/-! ### Helper lemmas: dot-splitting of textual names -/

theorem splitDotChars_ne_nil : ∀ cs : List Char, splitDotChars cs ≠ [] := by
  intro cs
  induction cs with
  | nil => simp [splitDotChars]
  | cons c cs ih =>
    simp only [splitDotChars]
    by_cases hc : c = '.'
    · simp [hc]
    · simp only [if_neg hc]
      cases h : splitDotChars cs with
      | nil => exact absurd h ih
      | cons p ps => simp

theorem splitDotChars_no_dot : ∀ cs : List Char, '.' ∉ cs → splitDotChars cs = [cs] := by
  intro cs
  induction cs with
  | nil => intro _; rfl
  | cons c cs ih =>
    intro h
    have hc : ¬ c = '.' := fun hh => h (by simp [hh])
    have hcs : '.' ∉ cs := fun hh => h (by simp [hh])
    simp only [splitDotChars, if_neg hc, ih hcs]

theorem splitDotChars_sep : ∀ (l rest : List Char), '.' ∉ l →
    splitDotChars (l ++ '.' :: rest) = l :: splitDotChars rest := by
  intro l
  induction l with
  | nil =>
    intro rest _
    simp [splitDotChars]
  | cons c l ih =>
    intro rest h
    have hc : ¬ c = '.' := fun hh => h (by simp [hh])
    have hl : '.' ∉ l := fun hh => h (by simp [hh])
    show splitDotChars (c :: (l ++ '.' :: rest)) = (c :: l) :: splitDotChars rest
    simp only [splitDotChars, if_neg hc]
    rw [ih rest hl]

theorem splitDotChars_joinDotChars : ∀ ll : List (List Char), ll ≠ [] →
    (∀ l ∈ ll, '.' ∉ l) → splitDotChars (joinDotChars ll) = ll := by
  intro ll
  induction ll with
  | nil => intro h; exact absurd rfl h
  | cons l ls ih =>
    intro _ h
    cases ls with
    | nil =>
      simp only [joinDotChars]
      exact splitDotChars_no_dot l (h l (by simp))
    | cons l2 ls2 =>
      simp only [joinDotChars]
      rw [splitDotChars_sep l _ (h l (by simp))]
      rw [ih (by simp) fun x hx => h x (by simp [hx])]

theorem splitDotChars_concat_dot : ∀ cs : List Char,
    splitDotChars (cs ++ ['.']) = splitDotChars cs ++ [[]] := by
  intro cs
  induction cs with
  | nil => rfl
  | cons c cs ih =>
    show splitDotChars (c :: (cs ++ ['.'])) = splitDotChars (c :: cs) ++ [[]]
    by_cases hc : c = '.'
    · simp only [splitDotChars, if_pos hc]
      rw [ih]
      rfl
    · simp only [splitDotChars, if_neg hc]
      rw [ih]
      cases h : splitDotChars cs with
      | nil => exact absurd h (splitDotChars_ne_nil cs)
      | cons p ps => rfl

theorem data_append (a b : String) : (a ++ b).data = a.data ++ b.data := rfl

theorem joinDot_data : ∀ ls : List String,
    (joinDot ls).data = joinDotChars (ls.map String.data) := by
  intro ls
  induction ls with
  | nil => rfl
  | cons l ls ih =>
    cases ls with
    | nil => rfl
    | cons l2 ls2 =>
      show (l ++ "." ++ joinDot (l2 :: ls2)).data =
        l.data ++ '.' :: joinDotChars ((l2 :: ls2).map String.data)
      rw [data_append, data_append, ih]
      simp

theorem splitDot_joinDot (ls : List String) (h1 : ls ≠ [])
    (h2 : ∀ l ∈ ls, '.' ∉ l.data) : splitDot (joinDot ls) = ls := by
  unfold splitDot
  rw [joinDot_data, splitDotChars_joinDotChars (ls.map String.data)
    (by simpa using h1)
    (fun l hl => by
      obtain ⟨s, hs, rfl⟩ := List.mem_map.mp hl
      exact h2 s hs)]
  rw [List.map_map, show (String.mk ∘ String.data) = id from funext fun s => rfl,
    List.map_id]

theorem splitDot_append_dot (s : String) :
    splitDot (s ++ ".") = splitDot s ++ [""] := by
  unfold splitDot
  rw [show (s ++ ".").data = s.data ++ ['.'] from rfl, splitDotChars_concat_dot,
    List.map_append]
  rfl

/-! ### Helper lemmas: collector, result cache, SOA detection -/

theorem collect_allFail (n : Nat) (t : Transport) (name : String) (c : Cache)
    (h : ∀ nm q s, t nm q s = none) :
    collect_results n t name c = (⟨[], [], [], []⟩, c) := by
  simp only [collect_results, lookup, resolver_allFail t h, cnamePass, aFold,
    aaaaFold, mxFold]

theorem dcFind_dcSet_self (dc : DomainCache) (k : String) (v : RecordSet) :
    dcFind (dcSet dc k v) k = some v := by
  induction dc with
  | nil => simp [dcSet, dcFind]
  | cons hd tl ih =>
    obtain ⟨k', v'⟩ := hd
    by_cases h : k' = k
    · simp [dcSet, h, dcFind]
    · simp [dcSet, h, dcFind, ih]

theorem collectNs_soa : ∀ (l : List Rdata) (ns : List String),
    (∃ r ∈ l, r.rdtype = 6) → collectNs ns l = none := by
  intro l
  induction l with
  | nil =>
    intro ns h
    simp at h
  | cons r rs ih =>
    intro ns h
    by_cases h6 : r.rdtype = 6
    · simp [collectNs, h6]
    · simp only [collectNs, if_neg h6]
      apply ih
      obtain ⟨x, hx, hx6⟩ := h
      rcases List.mem_cons.mp hx with heq | hmem
      · exact absurd (heq ▸ hx6) h6
      · exact ⟨x, hmem, hx6⟩

theorem dedupAux_nodup : ∀ (names acc : List String), acc.Nodup →
    (dedupAux acc names).Nodup := by
  intro names
  induction names with
  | nil =>
    intro acc h
    simpa [dedupAux] using h
  | cons x xs ih =>
    intro acc h
    by_cases hx : x ∈ acc
    · simp only [dedupAux, if_pos hx]
      exact ih acc h
    · simp only [dedupAux, if_neg hx]
      apply ih
      simp [List.nodup_append, h, hx]

/-! ### Claims -/

/-- C1 counterexample: the initial `lookup` of a resolution receives the
absolute textual name `"example.com."`; its cache key is `"com"`, the
top-level label, not `"example"`, the label immediately preceding the
top-level label as the claim states; likewise `ipv4_addr` records the glue
address for owner `"ns1.example.com."` under `"com"`. -/
theorem c1_counterexample :
    nameToText "example.com" = "example.com." ∧
    labelKey "example.com." = "com" ∧
    (ipv4_addr ["ns1.example.com.", "300", "IN", "A", "10.0.0.9"] []).2 =
      [("com", ["10.0.0.9"])] ∧
    ¬ labelKey "example.com." = "example" := by
  decide

/-- C1 (amended): the Label Cache key is element `length - 2` of the
dot-split of the textual name.  Names reaching `lookup` from a fresh
resolution and owner names reaching `ipv4_addr` are in absolute form
(trailing dot appended by `from_text`), so the key is the name's final
(top-level) label; only for the dot-stripped alias targets produced by the
CNAME rewrite is it the second-to-last label. -/
theorem c1_amended :
    (∀ s : String, endsDot s = false → nameToText s = s ++ ".") ∧
    (∀ (ls : List String) (h1 : ls ≠ []), (∀ l ∈ ls, '.' ∉ l.data) →
      labelKey (joinDot ls ++ ".") = ls.getLast h1) ∧
    (∀ ls : List String, ls ≠ [] → (∀ l ∈ ls, '.' ∉ l.data) →
      labelKey (joinDot ls) = ls.getD (ls.length - 2) "") := by
  refine ⟨?_, ?_, ?_⟩
  · intro s h
    simp [nameToText, h]
  · intro ls h1 h2
    simp only [labelKey]
    rw [splitDot_append_dot, splitDot_joinDot ls h1 h2]
    have hlen : (ls ++ [""]).length - 2 = ls.length - 1 := by
      simp
    have hlt : ls.length - 1 < ls.length := by
      have hpos : 0 < ls.length := List.length_pos.mpr h1
      omega
    rw [hlen, List.getD_append _ _ _ _ hlt, List.getD_eq_getElem _ _ hlt,
      List.getLast_eq_getElem]
  · intro ls h1 h2
    simp only [labelKey]
    rw [splitDot_joinDot ls h1 h2]

/-- C1 witness: for the labels `["example", "com"]`, the absolute form keys
to `"com"` and the stripped form keys to `"example"`. -/
theorem c1_witness :
    labelKey (joinDot ["example", "com"] ++ ".") = "com" ∧
    labelKey (joinDot ["example", "com"]) = "example" := by
  constructor
  · rw [c1_amended.2.1 ["example", "com"] (by decide) (by decide)]
    decide
  · rw [c1_amended.2.2 ["example", "com"] (by decide) (by decide)]
    decide

/-- C2 counterexample: candidate 1 answers with a record that neither
matches the query type nor is a CNAME, overwriting the working name
(`"orig.example.com"` becomes `"weird-data"`); candidate 2 then returns a
glue referral, and the walker recurses with the overwritten name, not the
original query name: it ends with `msgEvil` (the answer for `"weird-data."`)
where recursing with the unchanged original name yields `msgGood`. -/
theorem c2_counterexample :
    msgRef.answer = [] ∧
    ¬ msgRef.additional = [] ∧
    recursive_resolver 20 tC2 "orig.example.com" 1 ["7.7.7.1", "7.7.7.2"] [] =
      (some msgEvil, [("com", ["10.0.0.9"])]) ∧
    recursive_resolver 20 tC2 "orig.example.com" 1 ["10.0.0.9"]
        [("com", ["10.0.0.9"])] =
      (some msgGood, [("com", ["10.0.0.9"])]) ∧
    ¬ msgEvil = msgGood := by
  decide

/-- C2 (amended): on a response with empty answer and non-empty additional
section, the walker recurses with the same record type and the *current*
working name — equal to the original query name unless an earlier
candidate's answer overwrote it — against the concatenation of the Address
Extractor's outputs for the additional records; each output is the last
address token of the record's rendering when it contains an A record (not
every address of the record set). -/
theorem c2_amended (n : Nat) (t : Transport) (qn : String) (q : Nat)
    (tn : String) (s : String) (ss : List String) (c : Cache) (resp : Message)
    (ht : t qn q s = some resp)
    (hans : resp.answer.isEmpty = true)
    (hadd : resp.additional.isEmpty = false) :
    serverLoop (n + 1) t qn q tn (s :: ss) c =
      recursive_resolver n t tn q
        (resp.additional.flatMap fun a => extractOut (rrsetTokens a))
        (additionalLoop resp.additional c).2 ∧
    (additionalLoop resp.additional c).1 =
      resp.additional.flatMap fun a => extractOut (rrsetTokens a) := by
  constructor
  · simp only [serverLoop, ht, hans, hadd, if_true, Bool.false_eq_true, if_false]
    rw [additionalLoop_fst]
  · exact additionalLoop_fst resp.additional c

/-- C2 witness: the glue-referral step on `msgRef` recurses with the current
working name against the extracted glue address. -/
theorem c2_witness :
    serverLoop 18 tC2 "orig.example.com." 1 "orig.example.com" ["7.7.7.2"] [] =
      recursive_resolver 17 tC2 "orig.example.com" 1
        (msgRef.additional.flatMap fun a => extractOut (rrsetTokens a))
        (additionalLoop msgRef.additional []).2 ∧
    (additionalLoop msgRef.additional []).1 =
      msgRef.additional.flatMap fun a => extractOut (rrsetTokens a) :=
  c2_amended 17 tC2 "orig.example.com." 1 "orig.example.com" "7.7.7.2" [] []
    msgRef (by decide) (by decide) (by decide)

/-- C3 counterexample: an answer containing a record of the requested type
does not make the walker return the message when a CNAME precedes it —
`msgC3`'s answer holds a matching A record, yet the walker restarts on the
CNAME from the roots (which all fail) and returns `NotFound` instead of the
message. -/
theorem c3_counterexample :
    (∃ r ∈ flatRdatas msgC3.answer, r.rdtype = 1) ∧
    tC3 (nameToText "www.example.com") 1 "5.5.5.5" = some msgC3 ∧
    recursive_resolver 20 tC3 "www.example.com" 1 ["5.5.5.5"] [] = (none, []) ∧
    ¬ (none : Option Message) = some msgC3 := by
  decide

/-- C3 (amended): if the first answer record whose type matches the query or
is a CNAME is in fact a match, the walker returns the whole message at once,
with the cache untouched and independently of the remaining candidates and
of the transport's behaviour elsewhere. -/
theorem c3_amended (n : Nat) (t : Transport) (qn : String) (q : Nat)
    (tn : String) (s : String) (ss : List String) (c : Cache) (resp : Message)
    (r : Rdata)
    (ht : t qn q s = some resp)
    (hne : resp.answer.isEmpty = false)
    (hfind : (flatRdatas resp.answer).find? (relevantRdata q) = some r)
    (hq : r.rdtype = q) :
    serverLoop (n + 1) t qn q tn (s :: ss) c = (some resp, c) := by
  simp only [serverLoop, ht, hne, Bool.false_eq_true, if_false]
  rw [processAnswer_matched q (flatRdatas resp.answer) tn r hfind hq]

/-- C3 witness: a direct A answer is returned as-is, with a further
candidate still pending. -/
theorem c3_witness :
    serverLoop 5 tC3w "www.example.com." 1 "www.example.com"
      ["5.5.5.5", "6.6.6.6"] [] = (some msgC3w, []) :=
  c3_amended 4 tC3w "www.example.com." 1 "www.example.com" "5.5.5.5"
    ["6.6.6.6"] [] msgC3w ⟨1, ["1.2.3.4"]⟩ (by decide) (by decide) (by decide)
    (by decide)

/-- C4 (confirmed): when the first relevant answer record is a CNAME (no
record of the requested type before it), the walker extracts the alias
target — the record's text minus its final character — and restarts
`resolve(aliasTarget, recordType, ROOT_SERVERS)`: always the fixed root
list, never the current server or candidate list, whatever they are. -/
theorem c4 (n : Nat) (t : Transport) (qn : String) (q : Nat) (tn : String)
    (s : String) (ss : List String) (c : Cache) (resp : Message) (r : Rdata)
    (ht : t qn q s = some resp)
    (hne : resp.answer.isEmpty = false)
    (hfind : (flatRdatas resp.answer).find? (relevantRdata q) = some r)
    (h5 : r.rdtype = 5) (hq : ¬ r.rdtype = q) :
    serverLoop (n + 1) t qn q tn (s :: ss) c =
      recursive_resolver n t (dropLastChar (rdataText r)) q ROOT_SERVERS c := by
  simp only [serverLoop, ht, hne, Bool.false_eq_true, if_false]
  rw [processAnswer_cname q (flatRdatas resp.answer) tn r hfind h5 hq]

/-- C4 witness: the lone-CNAME answer restarts from the root servers with
the dot-stripped alias target. -/
theorem c4_witness :
    serverLoop 21 tC4 "www.example.com." 1 "www.example.com" ["5.5.5.5"] [] =
      recursive_resolver 20 tC4 "target.example.com" 1 ROOT_SERVERS [] := by
  rw [c4 20 tC4 "www.example.com." 1 "www.example.com" "5.5.5.5" [] [] msgC4
    ⟨5, ["target.example.com."]⟩ (by decide) (by decide) (by decide) (by decide)
    (by decide),
    show dropLastChar (rdataText ⟨5, ["target.example.com."]⟩) =
      "target.example.com" from by decide]

/-- C5 counterexample: an SOA in the authority section does not always
terminate resolution immediately — here the authority holds an NS record
set before the SOA record set, the walker chases that NS name (contacting
the root and the NS address) and returns its answer rather than `NotFound`. -/
theorem c5_counterexample :
    (∃ r ∈ flatRdatas msgRef2.authority, r.rdtype = 6) ∧
    msgRef2.answer = [] ∧
    msgRef2.additional = [] ∧
    recursive_resolver 40 tC5x "host.example.com" 1 ["7.7.7.7"] [] =
      (some msgFinal, [("com", ["9.9.9.9"])]) ∧
    ¬ (some msgFinal = (none : Option Message)) := by
  decide

/-- C5 (amended): when a response has empty answer and additional sections
and an SOA record occurs in the *first* record set of its authority section,
the walker returns `NotFound` at once — no NS name is chased, no remaining
candidate is contacted, the cache is untouched; an SOA only in a later
record set does not short-circuit NS chasing of earlier record sets.
On the all-SOA transport the collector's record set is four empty lists. -/
theorem c5_amended :
    (∀ (n : Nat) (t : Transport) (qn : String) (q : Nat) (tn : String)
      (s : String) (ss : List String) (c : Cache) (resp : Message) (a : RRset)
      (as_ : List RRset),
      t qn q s = some resp →
      resp.answer.isEmpty = true →
      resp.additional.isEmpty = true →
      resp.authority = a :: as_ →
      (∃ r ∈ a.rdatas, r.rdtype = 6) →
      serverLoop (n + 2) t qn q tn (s :: ss) c = (none, c)) ∧
    collect_results 20 tC5w "host.example.com" [] = (⟨[], [], [], []⟩, []) := by
  constructor
  · intro n t qn q tn s ss c resp a as_ ht hans hadd hauth hsoa
    simp only [serverLoop, ht, hans, hadd, hauth, if_true]
    simp only [authLoop, collectNs_soa a.rdatas [] hsoa]
  · decide

/-- C5 witness: the SOA-only authority answer yields `NotFound` with a
second candidate still pending. -/
theorem c5_witness :
    serverLoop 6 tC5w "host.example.com." 1 "host.example.com"
      ["7.7.7.7", "8.8.8.8"] [] = (none, []) :=
  c5_amended.1 4 tC5w "host.example.com." 1 "host.example.com" "7.7.7.7"
    ["8.8.8.8"] [] msgSoa
    ⟨"example.com.", 300,
     [⟨6, ["ns1.example.com.", "admin.example.com.", "1", "7200", "900",
           "1209600", "86400"]⟩]⟩
    [] (by decide) (by decide) (by decide) (by decide) (by decide)

/-- C6 (confirmed): a failed transport on one candidate makes the walker
step to the next candidate (the bare `except: continue`); if every candidate
in the list fails, the loop — and hence `resolve` — returns `NotFound`
with the cache untouched and nothing raised; and if every query of the run
fails, the collector returns four empty lists. -/
theorem c6 :
    (∀ (n : Nat) (t : Transport) (qn : String) (q : Nat) (tn : String)
      (s : String) (ss : List String) (c : Cache),
      t qn q s = none →
      serverLoop (n + 1) t qn q tn (s :: ss) c = serverLoop n t qn q tn ss c) ∧
    (∀ (n : Nat) (t : Transport) (qn : String) (q : Nat) (tn : String)
      (srv : List String) (c : Cache),
      (∀ s ∈ srv, t qn q s = none) →
      serverLoop n t qn q tn srv c = (none, c)) ∧
    (∀ t : Transport, (∀ nm q s, t nm q s = none) →
      ∀ (n : Nat) (tn : String) (q : Nat) (srv : List String) (c : Cache),
        recursive_resolver n t tn q srv c = (none, c)) ∧
    (∀ t : Transport, (∀ nm q s, t nm q s = none) →
      ∀ (n : Nat) (name : String) (c : Cache),
        collect_results n t name c = (⟨[], [], [], []⟩, c)) := by
  refine ⟨?_, ?_, ?_, ?_⟩
  · intro n t qn q tn s ss c ht
    simp only [serverLoop, ht]
  · intro n t qn q tn srv c h
    exact serverLoop_allFail t qn q srv n tn c h
  · intro t h n tn q srv c
    exact resolver_allFail t h n tn q srv c
  · intro t h n name c
    exact collect_allFail n t name c h

/-- C6 witness: with the everywhere-failing transport, the collector yields
four empty lists without touching the cache. -/
theorem c6_witness :
    collect_results 20 tNone "example.com" [] = (⟨[], [], [], []⟩, []) :=
  c6.2.2.2 tNone (fun _ _ _ => rfl) 20 "example.com" []

/-- C7 (confirmed): whatever the four sub-queries return — the CNAME lookup
with outcome `r1` (which, when successful, rewrites the working target to
the last answer record's dot-stripped text, else leaves the original
absolute name), then A, AAAA and MX at that working target with outcomes
`r2`, `r3`, `r4` — the collector always issues all four in order and
assembles exactly each sub-query's own filtered records: a failed or
`NotFound` sub-query contributes an empty list (`aOf none = []` and
likewise) and never prevents the other three from being attempted or their
results from being collected. -/
theorem c7 (n : Nat) (t : Transport) (name : String) (c c1 c2 c3 c4 : Cache)
    (r1 r2 r3 r4 : Option Message)
    (h1 : lookup n t (nameToText name) 5 c = (r1, c1))
    (h2 : lookup n t (cnameTarget (nameToText name) r1) 1 c1 = (r2, c2))
    (h3 : lookup n t (cnameTarget (nameToText name) r1) 28 c2 = (r3, c3))
    (h4 : lookup n t (cnameTarget (nameToText name) r1) 15 c3 = (r4, c4)) :
    collect_results n t name c =
      (⟨cnamesOf name r1, aOf r2, aaaaOf r3, mxOf r4⟩, c4) := by
  simp only [collect_results, h1, cnamePass_eq, h2, h3, h4]
  rw [aFold_eq, aaaaFold_eq, mxFold_eq]

/-- C7 witness: the CNAME step succeeds and rewrites the working target to
the alias target; there the A and AAAA queries fail while MX answers — the
record set still carries the alias pair, the MX answer and two empty
lists. -/
theorem c7_witness :
    collect_results 16 tC7w2 "alias.example.com" [] =
      (⟨[("real.example.com.", "alias.example.com")], [], [],
        [("real.example.com.", "10", "mx1.example.com.")]⟩, []) := by
  rw [c7 16 tC7w2 "alias.example.com" [] [] [] [] [] (some msgCn) none none
    (some msgMX2) (by decide) (by decide) (by decide) (by decide)]
  decide

/-- C8 counterexample: before the resolution the Label Cache holds no entry
for `"com"`, so `lookupServers` returns the 13 root servers; the resolution
observes one glue address and afterwards `lookupServers` returns just that
address — a non-empty list, but not a superset of the earlier result:
`"198.41.0.4"` has disappeared. -/
theorem c8_counterexample :
    lookupServers [] (nameToText "example.com") = ROOT_SERVERS ∧
    (recursive_resolver 10 tC8 "example.com" 1 ["7.7.7.7"] []).2 =
      [("com", ["10.0.0.9"])] ∧
    lookupServers [("com", ["10.0.0.9"])] (nameToText "example.com") =
      ["10.0.0.9"] ∧
    "198.41.0.4" ∈ lookupServers [] (nameToText "example.com") ∧
    ¬ "198.41.0.4" ∈
      lookupServers [("com", ["10.0.0.9"])] (nameToText "example.com") := by
  decide

/-- C8 (amended): `ipv4_addr` (the `rememberServers` site) and every
resolver run only ever append to a cache entry, never remove or replace
one; a name whose label is already cached is served exactly the cached,
non-empty list, and after any further resolution `lookupServers` returns
that list extended by whatever was appended — still non-empty.  Relative to
a pre-resolution `lookupServers` that fell back to the root servers, the
post-resolution list is the glue set instead, not a superset. -/
theorem c8_amended :
    (∀ (tokens : List String) (c : Cache) (k : String) (v : List String),
      cacheFind c k = some v →
      ∃ w, cacheFind (ipv4_addr tokens c).2 k = some (v ++ w)) ∧
    (∀ (n : Nat) (t : Transport) (tn : String) (q : Nat) (srv : List String)
      (c : Cache) (k : String) (v : List String),
      cacheFind c k = some v →
      ∃ w, cacheFind (recursive_resolver n t tn q srv c).2 k = some (v ++ w)) ∧
    (∀ (c : Cache) (nm : String) (v : List String),
      cacheFind c (labelKey nm) = some v → lookupServers c nm = v) ∧
    (∀ (n : Nat) (t : Transport) (tn : String) (q : Nat) (srv : List String)
      (c : Cache) (nm : String) (v : List String),
      cacheFind c (labelKey nm) = some v → ¬ v = [] →
      ∃ w, lookupServers (recursive_resolver n t tn q srv c).2 nm = v ++ w ∧
        ¬ v ++ w = []) := by
  refine ⟨?_, ?_, ?_, ?_⟩
  · intro tokens c k v h
    exact ipv4_addr_cacheLE tokens c k v h
  · intro n t tn q srv c k v h
    exact (resolver_cacheLE n).1 t tn q srv c k v h
  · intro c nm v h
    simp [lookupServers, h]
  · intro n t tn q srv c nm v h hne
    obtain ⟨w, hw⟩ := (resolver_cacheLE n).1 t tn q srv c (labelKey nm) v h
    refine ⟨w, ?_, by simp [hne]⟩
    simp [lookupServers, hw]

/-- C8 witness: a label already cached with one address keeps at least that
address across a resolution, and the served list stays non-empty. -/
theorem c8_witness :
    ∃ w,
      lookupServers (recursive_resolver 10 tC8 "example.com" 1 ["7.7.7.7"]
          [("com", ["5.5.5.5"])]).2 "example.com." = ["5.5.5.5"] ++ w ∧
      ¬ ["5.5.5.5"] ++ w = [] :=
  c8_amended.2.2.2 10 tC8 "example.com" 1 ["7.7.7.7"] [("com", ["5.5.5.5"])]
    "example.com." ["5.5.5.5"] (by decide) (by decide)

/-- C9 counterexample: `main` deduplicates its arguments before processing,
so requesting the same name twice within one run produces a single record
set (the second request is dropped, not served from the Result Cache): the
run's output list has length 1, not a second, structurally identical entry. -/
theorem c9_counterexample :
    (runMain 20 tNone ["example.com", "example.com"] ([], [])).1 =
      [("example.com", ⟨[], [], [], []⟩)] ∧
    ¬ ((runMain 20 tNone ["example.com", "example.com"] ([], [])).1).length = 2 := by
  decide

/-- C9 (amended): within one run a duplicated name is resolved only once —
`main`'s argument deduplication removes the repeat before processing
(`dedupAux` output has no duplicates), and the Result Cache branch serves a
name that is already stored (keyed by the exact original string) with the
stored record set, unchanged state, and no dependence on transport or fuel,
i.e. without network activity; processing a fresh name stores its result so
that a repeated processing is served that way. -/
theorem c9_amended :
    (∀ (name : String) (st : MainState) (r : RecordSet),
      dcFind st.1 name = some r →
      ∀ (n' : Nat) (t' : Transport), processName n' t' name st = (r, st)) ∧
    (∀ (n : Nat) (t : Transport) (name : String) (st : MainState),
      dcFind st.1 name = none →
      ∀ (n' : Nat) (t' : Transport),
        processName n' t' name (processName n t name st).2 =
          ((processName n t name st).1, (processName n t name st).2)) ∧
    (∀ names : List String, (dedupAux [] names).Nodup) := by
  refine ⟨?_, ?_, ?_⟩
  · intro name st r h n' t'
    simp [processName, h]
  · intro n t name st h n' t'
    have hfind : dcFind (dcSet st.1 name (collect_results n t name st.2).1)
        name = some (collect_results n t name st.2).1 :=
      dcFind_dcSet_self _ _ _
    simp [processName, h, hfind]
  · intro names
    exact dedupAux_nodup names [] (by simp)

/-- C9 witness: after a fresh name is processed, reprocessing it — with a
different fuel and a transport that would answer — returns the stored
record set and leaves the state unchanged. -/
theorem c9_witness :
    processName 7 tC8 "example.com"
        (processName 20 tNone "example.com" ([], [])).2 =
      ((processName 20 tNone "example.com" ([], [])).1,
       (processName 20 tNone "example.com" ([], [])).2) :=
  c9_amended.2.1 20 tNone "example.com" ([], []) (by decide) 7 tC8

/-- C10 (confirmed): the collector's CNAME block appends *every* answer
record as an alias pair `(record text, requested name)` with no type check
— unlike the A/AAAA/MX blocks, which filter by `rdtype` — and the working
target for the subsequent lookups becomes the text (minus the final
character) of the last answer record, whatever its type. -/
theorem c10 (name target0 : String) (resp : Message) :
    cnamePass name target0 (some resp) =
      ((flatRdatas resp.answer).map fun rd => (rdataText rd, name),
       ((flatRdatas resp.answer).getLast?.map fun rd =>
         dropLastChar (rdataText rd)).getD target0) ∧
    ∀ rd ∈ flatRdatas resp.answer,
      (rdataText rd, name) ∈ (cnamePass name target0 (some resp)).1 := by
  constructor
  · rw [cnamePass_eq]
    rfl
  · intro rd hrd
    rw [cnamePass_eq]
    simp only [cnamesOf]
    exact List.mem_map.mpr ⟨rd, hrd, rfl⟩

/-- C10 witness: a CNAME-step answer holding a single A record (type 1)
still lands in the alias list, and its address text minus the final
character becomes the working target. -/
theorem c10_witness :
    cnamePass "x.com" "x.com." (some msgC10) =
      ([("7.7.7.7", "x.com")], "7.7.7.") := by
  rw [(c10 "x.com" "x.com." msgC10).1]
  decide
